import Mathlib

/-!
Verification of the TCP broadcast chat server material
(repository SuneYde/NotesAndExperiments).

The development shallowly embeds the executable parts of the source:

* `ChatProtocol.pack` / `ChatProtocol.unpack` — the length-prefixed binary
  framing from `src/ComputerScience/Networking/TCP/TCP.md` (lines 181-205).
* the chat-variant server handlers (username adoption, broadcast, end/error
  cleanup) from `src/unnamed/part_000` (lines 27-83).
* the heartbeat-variant server handlers (PING interval, 60s socket timeout,
  message validation, broadcast + echo, splice cleanup) from
  `src/unnamed/part_000` (lines 188-281).

JavaScript strings are modelled as lists of Unicode code points
(`List Nat`); byte buffers as lists of byte values (`List Nat`).
`Buffer.from(string)` is UTF-8 encoding, `buffer.toString()` is UTF-8
decoding with U+FFFD replacement, as Node.js implements (the WHATWG
decoder).  Chat-variant text payloads are modelled as `List Char`.
-/

namespace ChatProtocol

/-- The UTF-16 code-unit count of one code point: JavaScript
`String.prototype.length` counts UTF-16 units, so a code point at or above
U+10000 counts twice (surrogate pair). -/
def utf16Len (cp : Nat) : Nat :=
  if cp < 0x10000 then 1 else 2

/-- JavaScript `content.length`: total UTF-16 code units of the string. -/
def jsLength (s : List Nat) : Nat :=
  (s.map utf16Len).sum

/-- UTF-8 encoding of one Unicode scalar value, as `Buffer.from(content)`
performs per character. -/
def utf8EncodeChar (cp : Nat) : List Nat :=
  if cp < 0x80 then [cp]
  else if cp < 0x800 then [0xC0 + cp / 64, 0x80 + cp % 64]
  else if cp < 0x10000 then
    [0xE0 + cp / 4096, 0x80 + cp / 64 % 64, 0x80 + cp % 64]
  else
    [0xF0 + cp / 262144, 0x80 + cp / 4096 % 64, 0x80 + cp / 64 % 64,
     0x80 + cp % 64]

/-- `Buffer.from(content)`: UTF-8 bytes of the whole string. -/
def utf8Encode (s : List Nat) : List Nat :=
  (s.map utf8EncodeChar).flatten

/-- State of the WHATWG UTF-8 decoder that Node.js `buffer.toString()`
implements: the partial code point, how many continuation bytes are still
needed, and the admissible range for the next continuation byte. -/
structure Utf8State where
  codePoint : Nat
  needed : Nat
  lower : Nat
  upper : Nat
  deriving DecidableEq, Repr

/-- Initial decoder state: expecting a lead byte. -/
def utf8Init : Utf8State := ⟨0, 0, 0x80, 0xBF⟩

/-- Handle one byte in the lead-byte state; returns the next state and the
code points emitted (an ASCII byte or a replacement U+FFFD for an invalid
lead byte). -/
def utf8Step0 (b : Nat) : Utf8State × List Nat :=
  if b < 0x80 then (utf8Init, [b])
  else if b < 0xC2 then (utf8Init, [0xFFFD])
  else if b < 0xE0 then (⟨b % 32, 1, 0x80, 0xBF⟩, [])
  else if b < 0xF0 then
    (⟨b % 16, 2, if b = 0xE0 then 0xA0 else 0x80,
      if b = 0xED then 0x9F else 0xBF⟩, [])
  else if b < 0xF5 then
    (⟨b % 8, 3, if b = 0xF0 then 0x90 else 0x80,
      if b = 0xF4 then 0x8F else 0xBF⟩, [])
  else (utf8Init, [0xFFFD])

/-- The decoding loop.  An invalid continuation byte emits U+FFFD and is
reprocessed as a lead byte (the WHATWG "prepend byte to stream" step,
inlined).  A truncated sequence at end of input emits one U+FFFD. -/
def utf8DecodeGo (st : Utf8State) : List Nat → List Nat
  | [] => if st.needed = 0 then [] else [0xFFFD]
  | b :: rest =>
    if st.needed = 0 then
      let s := utf8Step0 b
      s.2 ++ utf8DecodeGo s.1 rest
    else if st.lower ≤ b ∧ b ≤ st.upper then
      let cp := st.codePoint * 64 + b % 64
      if st.needed = 1 then cp :: utf8DecodeGo utf8Init rest
      else utf8DecodeGo ⟨cp, st.needed - 1, 0x80, 0xBF⟩ rest
    else
      let s := utf8Step0 b
      0xFFFD :: (s.2 ++ utf8DecodeGo s.1 rest)

/-- `buffer.toString()`: UTF-8 decode with replacement characters. -/
def utf8Decode (bs : List Nat) : List Nat :=
  utf8DecodeGo utf8Init bs

/-- The four big-endian bytes of `lengthBuffer.writeUInt32BE(n)`. -/
def be32 (n : Nat) : List Nat :=
  [n / 16777216 % 256, n / 65536 % 256, n / 256 % 256, n % 256]

/-- `buffer.readUInt32BE` applied to four bytes. -/
def readBE32 (a b c d : Nat) : Nat :=
  a * 16777216 + b * 65536 + c * 256 + d

/-- `ChatProtocol.pack(type, content)` (TCP.md lines 182-192):
one type byte (`writeUInt8(type)`), four big-endian length bytes holding
`content.length` — the UTF-16 code-unit count, *not* the UTF-8 byte
count — followed by `Buffer.from(content)`, the UTF-8 bytes.
`writeUInt8`/`writeUInt32BE` throw on out-of-range values; the reductions
mod 256 and mod 2^32 make the model total, and theorems carry the in-range
hypotheses. -/
def pack (ty : Nat) (content : List Nat) : List Nat :=
  ty % 256 :: (be32 (jsLength content % 4294967296) ++ utf8Encode content)

/-- `ChatProtocol.unpack(buffer)` (TCP.md lines 194-204):
`readUInt8(0)` for the type, `readUInt32BE(1)` for the declared length,
then `buffer.slice(5, 5 + length).toString()` for the content.  The reads
throw a `RangeError` on a buffer shorter than five bytes — modelled as
`none`.  `slice` clamps to the buffer's bounds (`List.take`); there is no
check of the declared length against any maximum. -/
def unpack (buf : List Nat) : Option (Nat × List Nat) :=
  match buf with
  | t :: a :: b :: c :: d :: rest =>
    some (t, utf8Decode (rest.take (readBE32 a b c d)))
  | _ => none

/-! Helper lemmas for the codec -/

/-- An all-ASCII code-point list UTF-8-encodes to itself, byte for byte. -/
theorem utf8Encode_ascii (s : List Nat) (h : ∀ cp ∈ s, cp < 128) :
    utf8Encode s = s := by
  induction s with
  | nil => rfl
  | cons a l ih =>
    have ha : a < 128 := h a (List.mem_cons_self a l)
    have hl : ∀ cp ∈ l, cp < 128 := fun cp hcp => h cp (List.mem_cons_of_mem a hcp)
    simp [utf8Encode, utf8EncodeChar, ha] at *
    simpa [utf8Encode] using ih hl

/-- For an all-ASCII string, the UTF-16 code-unit count equals the number
of code points. -/
theorem jsLength_ascii (s : List Nat) (h : ∀ cp ∈ s, cp < 128) :
    jsLength s = s.length := by
  induction s with
  | nil => rfl
  | cons a l ih =>
    have ha : a < 128 := h a (List.mem_cons_self a l)
    have hl : ∀ cp ∈ l, cp < 128 := fun cp hcp => h cp (List.mem_cons_of_mem a hcp)
    have h1 : utf16Len a = 1 := by
      unfold utf16Len
      have : a < 0x10000 := by omega
      simp [this]
    have h2 := ih hl
    simp only [jsLength, List.map_cons, List.sum_cons, h1, List.length_cons]
    simp only [jsLength] at h2
    omega

/-- Decoding an all-ASCII byte list yields the same values as code points. -/
theorem utf8DecodeGo_ascii (bs : List Nat) (h : ∀ b ∈ bs, b < 128) :
    utf8DecodeGo utf8Init bs = bs := by
  induction bs with
  | nil => rfl
  | cons a l ih =>
    have ha : a < 128 := h a (List.mem_cons_self a l)
    have hl : ∀ b ∈ l, b < 128 := fun b hb => h b (List.mem_cons_of_mem a hb)
    simp only [utf8DecodeGo, utf8Init, utf8Step0]
    simp only [ha, if_pos, if_true]
    simp [utf8DecodeGo, utf8Init] at ih ⊢
    exact ih hl

/-- `utf8Decode` is the identity on ASCII byte lists. -/
theorem utf8Decode_ascii (bs : List Nat) (h : ∀ b ∈ bs, b < 128) :
    utf8Decode bs = bs :=
  utf8DecodeGo_ascii bs h

/-- Reading back the four big-endian bytes of an in-range value. -/
theorem readBE32_be32 (n : Nat) (h : n < 4294967296) :
    readBE32 (n / 16777216 % 256) (n / 65536 % 256) (n / 256 % 256)
      (n % 256) = n := by
  unfold readBE32
  omega

/-- A buffer shorter than the five header bytes makes `unpack` throw
(`none`): `readUInt32BE(1)` needs bytes 1 through 4. -/
theorem unpack_short (bs : List Nat) (h : bs.length < 5) :
    unpack bs = none := by
  match bs with
  | [] => rfl
  | [_] => rfl
  | [_, _] => rfl
  | [_, _, _] => rfl
  | [_, _, _, _] => rfl
  | _ :: _ :: _ :: _ :: _ :: _ => exact absurd h (by simp)

/-- Round-trip through the codec for in-range type and all-ASCII content:
here the UTF-16 code-unit count coincides with the UTF-8 byte count, so the
declared length is correct. -/
theorem unpack_pack_of_ascii (ty : Nat) (content : List Nat)
    (hty : ty < 256) (hascii : ∀ cp ∈ content, cp < 128)
    (hlen : content.length < 4294967296) :
    unpack (pack ty content) = some (ty, content) := by
  have henc : utf8Encode content = content := utf8Encode_ascii content hascii
  have hjs : jsLength content = content.length := jsLength_ascii content hascii
  have hmod : jsLength content % 4294967296 = content.length := by
    rw [hjs]; exact Nat.mod_eq_of_lt hlen
  have hread : readBE32 (content.length / 16777216 % 256)
      (content.length / 65536 % 256) (content.length / 256 % 256)
      (content.length % 256) = content.length := readBE32_be32 _ hlen
  simp only [pack, be32, hmod, henc, List.cons_append, List.nil_append,
    unpack, hread, List.take_length, Nat.mod_eq_of_lt hty]
  rw [utf8Decode_ascii content hascii]

end ChatProtocol

/-! Claim C1: round-trip of the binary framing -/

/-- C1 counterexample. The round-trip fails on non-ASCII content:
for the one-character content U+00E9 ("é"), `pack` writes length 1 (the
UTF-16 code-unit count) while `Buffer.from` produces the two UTF-8 bytes
`C3 A9`; `unpack` therefore slices only the byte `C3`, an incomplete
sequence that decodes to the replacement character U+FFFD, not to U+00E9. -/
theorem c1_roundtrip_nonascii_cex :
    ChatProtocol.unpack (ChatProtocol.pack 1 [0xE9]) = some (1, [0xFFFD]) ∧
    ChatProtocol.unpack (ChatProtocol.pack 1 [0xE9]) ≠ some (1, [0xE9]) := by
  constructor <;> decide

/-- C1 amended. Decoding the encoding of a message returns the same
type and the same content whenever the type is a byte and the content is
ASCII-only (each code point below 128, string length in range for
`writeUInt32BE`); only then does the UTF-16 code-unit count written into
the length field agree with the UTF-8 byte count that `unpack` slices. -/
theorem c1_roundtrip_ascii (ty : Nat) (content : List Nat)
    (hty : ty < 256) (hascii : ∀ cp ∈ content, cp < 128)
    (hlen : content.length < 4294967296) :
    ChatProtocol.unpack (ChatProtocol.pack ty content) = some (ty, content) :=
  ChatProtocol.unpack_pack_of_ascii ty content hty hascii hlen

/-- C1 witness. The amended round-trip at type 1 and content "hi". -/
theorem c1_roundtrip_ascii_witness :
    (1 : Nat) < 256 ∧ (∀ cp ∈ [104, 105], cp < 128) ∧
    ([104, 105] : List Nat).length < 4294967296 ∧
    ChatProtocol.unpack (ChatProtocol.pack 1 [104, 105]) =
      some (1, [104, 105]) :=
  ⟨by decide, by decide, by decide,
   c1_roundtrip_ascii 1 [104, 105] (by decide) (by decide) (by decide)⟩

/-! Claim C6: oversized declared length -/

/-- C6 counterexample. A frame declaring the maximal 32-bit length
4294967295 over a one-byte payload is decoded *successfully*: `unpack`
performs no comparison of the declared length against any maximum and
raises no `FrameTooLarge` error (no such error exists in the source);
`buffer.slice(5, 5 + length)` merely clamps to the bytes available. -/
theorem c6_no_frame_too_large_cex :
    ChatProtocol.unpack [1, 255, 255, 255, 255, 97] = some (1, [97]) ∧
    ChatProtocol.unpack [1, 255, 255, 255, 255, 97] ≠ none := by
  constructor <;> decide

/-- C6 amended. The decoder never checks the declared length: for
every buffer whose declared length is at least the number of available
payload bytes, `unpack` succeeds and returns the decode of *all* available
payload bytes (the `slice` clamps), so no buffer of the declared size is
allocated — but no `FrameTooLarge` error is produced and the connection is
not closed. -/
theorem c6_oversized_length_clamps (t a b c d : Nat) (rest : List Nat)
    (h : rest.length ≤ ChatProtocol.readBE32 a b c d) :
    ChatProtocol.unpack (t :: a :: b :: c :: d :: rest) =
      some (t, ChatProtocol.utf8Decode rest) := by
  simp only [ChatProtocol.unpack, List.take_of_length_le h]

/-- C6 witness. The amended statement at the counterexample frame. -/
theorem c6_oversized_length_clamps_witness :
    ([97] : List Nat).length ≤ ChatProtocol.readBE32 255 255 255 255 ∧
    ChatProtocol.unpack [1, 255, 255, 255, 255, 97] = some (1, [97]) := by
  refine ⟨by decide, ?_⟩
  rw [c6_oversized_length_clamps 1 255 255 255 255 [97] (by decide)]
  decide

/-! Claim C7: re-chunking invariance -/

/-- C7 counterexample. The decoder keeps no accumulation buffer: it
is the stateless function `unpack` applied to whatever bytes arrive.
Splitting the 6-byte frame for message (type 1, content "a") after its
third byte and feeding the two chunks separately yields no message at all
(both chunks are shorter than the 5-byte header, so both reads throw),
whereas the whole frame decodes to the message — re-chunking is not
transparent. -/
theorem c7_chunking_cex :
    ChatProtocol.unpack [1, 0, 0] = none ∧
    ChatProtocol.unpack [0, 1, 97] = none ∧
    ChatProtocol.unpack [1, 0, 0, 0, 1, 97] = some (1, [97]) := by
  refine ⟨by decide, by decide, by decide⟩

/-- C7 amended. Decoding is *not* invariant under re-chunking: for
every valid ASCII frame and every proper prefix of it (a first chunk of
any split), `unpack` on the prefix disagrees with `unpack` on the whole
frame.  Only whole-frame delivery decodes the message; there is no partial
-input buffering in the code. -/
theorem c7_prefix_differs (ty : Nat) (s : List Nat) (k : Nat)
    (hty : ty < 256) (hascii : ∀ cp ∈ s, cp < 128)
    (hlen : s.length < 4294967296)
    (hk : k < (ChatProtocol.pack ty s).length) :
    ChatProtocol.unpack ((ChatProtocol.pack ty s).take k) ≠
      ChatProtocol.unpack (ChatProtocol.pack ty s) := by
  have hwhole : ChatProtocol.unpack (ChatProtocol.pack ty s) = some (ty, s) :=
    ChatProtocol.unpack_pack_of_ascii ty s hty hascii hlen
  have henc : ChatProtocol.utf8Encode s = s := ChatProtocol.utf8Encode_ascii s hascii
  have hjs : ChatProtocol.jsLength s = s.length := ChatProtocol.jsLength_ascii s hascii
  have hmod : ChatProtocol.jsLength s % 4294967296 = s.length := by
    rw [hjs]; exact Nat.mod_eq_of_lt hlen
  have hpage : ChatProtocol.pack ty s =
      ty % 256 :: (s.length / 16777216 % 256) :: (s.length / 65536 % 256) ::
        (s.length / 256 % 256) :: (s.length % 256) :: s := by
    simp [ChatProtocol.pack, ChatProtocol.be32, hmod, henc]
  have hplen : (ChatProtocol.pack ty s).length = 5 + s.length := by
    rw [hpage]; simp; omega
  rw [hwhole]
  rcases Nat.lt_or_ge k 5 with hk5 | hk5
  · have hshort : ((ChatProtocol.pack ty s).take k).length < 5 := by
      simp only [List.length_take]
      omega
    rw [ChatProtocol.unpack_short _ hshort]
    simp
  · obtain ⟨j, rfl⟩ : ∃ j, k = 5 + j := ⟨k - 5, by omega⟩
    have hj : j < s.length := by rw [hplen] at hk; omega
    have htake : (ChatProtocol.pack ty s).take (5 + j) =
        ty % 256 :: (s.length / 16777216 % 256) :: (s.length / 65536 % 256) ::
          (s.length / 256 % 256) :: (s.length % 256) :: s.take j := by
      rw [hpage]
      simp [List.take_succ_cons, Nat.add_comm 5 j]
    rw [htake]
    have hread : ChatProtocol.readBE32 (s.length / 16777216 % 256)
        (s.length / 65536 % 256) (s.length / 256 % 256) (s.length % 256) =
        s.length := ChatProtocol.readBE32_be32 _ hlen
    simp only [ChatProtocol.unpack, hread]
    have htt : (s.take j).take s.length = s.take j := by
      apply List.take_of_length_le
      simp only [List.length_take]
      omega
    rw [htt]
    have hdec : ChatProtocol.utf8Decode (s.take j) = s.take j := by
      apply ChatProtocol.utf8Decode_ascii
      intro b hb
      exact hascii b (List.mem_of_mem_take hb)
    rw [hdec]
    intro hcontra
    have := (Option.some.injEq _ _).mp hcontra
    have h2 : s.take j = s := (Prod.mk.injEq _ _ _ _).mp this |>.2
    have : (s.take j).length = s.length := by rw [h2]
    simp only [List.length_take] at this
    omega

/-- C7 witness. The amended statement at the frame for (1, "a"),
split after byte 3. -/
theorem c7_prefix_differs_witness :
    (1 : Nat) < 256 ∧ (∀ cp ∈ [97], cp < 128) ∧
    ([97] : List Nat).length < 4294967296 ∧
    3 < (ChatProtocol.pack 1 [97]).length ∧
    ChatProtocol.unpack ((ChatProtocol.pack 1 [97]).take 3) ≠
      ChatProtocol.unpack (ChatProtocol.pack 1 [97]) :=
  ⟨by decide, by decide, by decide, by decide,
   c7_prefix_differs 1 [97] 3 (by decide) (by decide) (by decide) (by decide)⟩

namespace ChatServer

/-!
The chat variant of `src/unnamed/part_000` (lines 27-91).  Text is
`List Char`; socket handles are opaque `Nat` ids.  ANSI color strings are
data threaded through unchanged (`userColor`).  The registry is the global
`clients` `Map`, modelled as an id-keyed association list.
-/

/-- JavaScript `String.prototype.trim()` whitespace test (the source only
ever meets ASCII whitespace: space, tab, newline, carriage return, and the
vertical-tab/form-feed controls). -/
def isJsWs (c : Char) : Bool :=
  c = ' ' || c = '\t' || c = '\n' || c = '\r' || c = '\x0b' || c = '\x0c'

/-- `data.toString().trim()`: strip leading and trailing whitespace. -/
def jsTrim (s : List Char) : List Char :=
  ((s.dropWhile isJsWs).reverse.dropWhile isJsWs).reverse

/-- One observable effect of a chat-variant handler, in program order:
`broadcastAll m` is `broadcast(m)` (no sender argument — every registry
member receives it), `broadcastExcept m` is `broadcast(m, socket)` (every
registry member except this socket), `writeSelf m` is `socket.write(m)`,
`registrySet u c` is `clients.set(socket, {username: u, color: c})`, and
`registryDelete` is `clients.delete(socket)`. -/
inductive ChatEffect where
  | broadcastAll (msg : List Char)
  | broadcastExcept (msg : List Char)
  | writeSelf (msg : List Char)
  | registrySet (username color : List Char)
  | registryDelete
  deriving DecidableEq, Repr

/-- Line 48: the join notice `${userColor}${username} has joined the chat\x1b[0m\n`. -/
def joinText (color username : List Char) : List Char :=
  color ++ username ++ " has joined the chat\x1b[0m\n".toList

/-- Line 49: the welcome reply `Welcome ${username}! You are now connected.\n`. -/
def welcomeText (username : List Char) : List Char :=
  "Welcome ".toList ++ username ++ "! You are now connected.\n".toList

/-- Line 55: the chat line `${userColor}${username}\x1b[0m: ${message}\n`. -/
def chatText (color username message : List Char) : List Char :=
  color ++ username ++ "\x1b[0m: ".toList ++ message ++ ['\n']

/-- Line 66: the leave notice `${userColor}${username} has left the chat\x1b[0m\n`. -/
def leaveText (color username : List Char) : List Char :=
  color ++ username ++ " has left the chat\x1b[0m\n".toList

/-- The chat-variant `data` handler (lines 40-56).  `username` starts as
the empty string and `if (!username)` tests JavaScript falsiness, i.e.
emptiness.  In the name-adoption branch the trimmed payload becomes the
username, the socket is registered, the join notice is broadcast to all
and the welcome line written back; afterwards each message is broadcast to
everyone except the sender as a chat line.  Returns the new `username`
value and the effects in program order. -/
def chatDataStep (username color raw : List Char) :
    List Char × List ChatEffect :=
  let message := jsTrim raw
  if username = [] then
    (message,
     [ChatEffect.registrySet message color,
      ChatEffect.broadcastAll (joinText color message),
      ChatEffect.writeSelf (welcomeText message)])
  else
    (username, [ChatEffect.broadcastExcept (chatText color username message)])

/-- Run the data handler over a sequence of received payloads, threading
the connection's `username` variable. -/
def chatRun (username color : List Char) : List (List Char) →
    List Char × List ChatEffect
  | [] => (username, [])
  | m :: rest =>
    let r := chatDataStep username color m
    let r2 := chatRun r.1 color rest
    (r2.1, r.2 ++ r2.2)

/-- Is this effect a chat-content broadcast?  In the data handler, chat
content is forwarded exactly by `broadcast(..., socket)`. -/
def isChatBroadcast : ChatEffect → Bool
  | ChatEffect.broadcastExcept _ => true
  | _ => false

/-- The chat-variant `end` handler (lines 58-69): only when `username` is
non-empty (truthy) are the leave notice broadcast and the socket removed
from the registry. -/
def chatEndStep (username color : List Char) : List ChatEffect :=
  if username = [] then []
  else [ChatEffect.broadcastAll (leaveText color username),
        ChatEffect.registryDelete]

/-- The chat-variant `error` handler (lines 71-74): the socket is removed
from the registry unconditionally; nothing is broadcast. -/
def chatErrorStep (_username _color : List Char) : List ChatEffect :=
  [ChatEffect.registryDelete]

/-- `broadcast(message, sender)` (lines 77-83): write `message` to every
registered client whose socket differs from `sender`; `broadcast(message)`
leaves `sender` undefined (`none`), so every client receives it. -/
def broadcast (clients : List Nat) (message : List Char)
    (sender : Option Nat) : List (Nat × List Char) :=
  (clients.filter (fun c => some c ≠ sender)).map (fun c => (c, message))

/-- Removing one occurrence from a duplicate-free list of registered
sockets leaves one fewer element. -/
theorem length_filter_ne (clients : List Nat) (x : Nat)
    (hnd : clients.Nodup) (hx : x ∈ clients) :
    (clients.filter (fun c => c ≠ x)).length = clients.length - 1 := by
  have h1 : clients.erase x = clients.filter (fun c => c ≠ x) := by
    simpa using hnd.erase_eq_filter x
  rw [← h1]
  have h2 := List.length_erase_add_one hx
  omega

end ChatServer

namespace HeartbeatServer

/-!
The heartbeat variant of `src/unnamed/part_000` (lines 188-281): a global
`clients` array of sockets, a 30-second PING interval per connection, a
60-second socket inactivity timeout whose handler calls `socket.end()`,
a data handler that validates, broadcasts to the other clients and echoes
to the sender, and `end`/`error` handlers that clear the interval and
splice the socket out of the array.
-/

/-- Line 220: `Broadcast from server: ${dataString}\n`. -/
def hbBroadcastText (ds : List Char) : List Char :=
  "Broadcast from server: ".toList ++ ds ++ ['\n']

/-- Line 225: `Server received: ${dataString}\n`. -/
def hbEchoText (ds : List Char) : List Char :=
  "Server received: ".toList ++ ds ++ ['\n']

/-- Line 209: the reply to an empty message. -/
def invalidText : List Char :=
  "Invalid message received\n".toList

/-- The heartbeat-variant `data` handler (lines 202-226), as the list of
socket writes it performs, in program order.  An input whose trimmed form
is empty gets only the invalid-message reply to the sender; otherwise
every other client in the array receives the broadcast line and the sender
receives the echo line. -/
def hbDataHandler (clients : List Nat) (sock : Nat) (raw : List Char) :
    List (Nat × List Char) :=
  let dataString := ChatServer.jsTrim raw
  if dataString.length = 0 then [(sock, invalidText)]
  else
    ((clients.filter (fun c => c ≠ sock)).map
      (fun c => (c, hbBroadcastText dataString))) ++
    [(sock, hbEchoText dataString)]

/-- Line 240: `socket.setTimeout(60000)` — the one-minute inactivity limit. -/
def socketTimeoutMs : Nat := 60000

/-- Lines 198-200: the PING interval period. -/
def heartbeatIntervalMs : Nat := 30000

/-- Line 199: the probe text written on each interval tick. -/
def hbPingText : List Char := "PING".toList

/-- One tick of the per-connection heartbeat interval (lines 198-200):
write "PING" to the socket. -/
def hbPingTick (sock : Nat) : Nat × List Char := (sock, hbPingText)

/-- `clients.splice(clients.indexOf(socket), 1)` (lines 231 and 237):
remove the first occurrence.  When the socket is absent, `indexOf`
yields -1 and `splice(-1, 1)` removes the *last* element of the array. -/
def hbSpliceOut (clients : List Nat) (sock : Nat) : List Nat :=
  if sock ∈ clients then clients.erase sock else clients.dropLast

/-- The heartbeat-variant `end` handler (lines 228-232): log, clear the
interval, splice the socket out.  It writes nothing to any peer — there is
no leave notification in this variant.  Returns the new `clients` array
and the (empty) list of peer writes. -/
def hbEndStep (clients : List Nat) (sock : Nat) :
    List Nat × List (Nat × List Char) :=
  (hbSpliceOut clients sock, [])

/-- The `timeout` handler (lines 241-244) calls `socket.end()`, which in
turn fires the `end` event, so eviction on timeout is exactly the `end`
handler's cleanup. -/
def hbTimeoutStep (clients : List Nat) (sock : Nat) :
    List Nat × List (Nat × List Char) :=
  hbEndStep clients sock

/-- Line 193: `clients.push(socket)` — registration of a new connection is
an unconditional append; there is no capacity check anywhere. -/
def hbRegister (clients : List Nat) (sock : Nat) : List Nat :=
  clients ++ [sock]

/-- The broadcast loop (lines 218-222) over clients with a liveness flag:
`client.write` never throws into the loop (a dead peer's failure surfaces
on that socket's own `error` event), so every client other than the sender
gets a write attempt regardless of any other client's state.  Returns the
successful deliveries and the sockets whose write failed, in loop order. -/
def broadcastAttempt (clients : List (Nat × Bool)) (sender : Nat)
    (msg : List Char) : List (Nat × List Char) × List Nat :=
  match clients with
  | [] => ([], [])
  | (c, alive) :: rest =>
    let r := broadcastAttempt rest sender msg
    if c = sender then r
    else if alive then ((c, msg) :: r.1, r.2)
    else (r.1, c :: r.2)

/-- The echo and broadcast lines differ as messages (distinct first
character), so the sender's confirmation is a distinct message. -/
theorem hbEchoText_ne_hbBroadcastText (ds : List Char) :
    hbEchoText ds ≠ hbBroadcastText ds := by
  intro heq
  have h1 : hbEchoText ds =
      'S' :: ("erver received: ".toList ++ ds ++ ['\n']) := rfl
  have h2 : hbBroadcastText ds =
      'B' :: ("roadcast from server: ".toList ++ ds ++ ['\n']) := rfl
  rw [h1, h2] at heq
  injection heq with hh _
  exact absurd hh (by decide)

/-- Every live client other than the sender receives the message, and
every dead client other than the sender is recorded as a failure — each
independently of the rest of the list. -/
theorem broadcastAttempt_mem (clients : List (Nat × Bool)) (sender : Nat)
    (msg : List Char) :
    (∀ c, (c, true) ∈ clients → c ≠ sender →
      (c, msg) ∈ (broadcastAttempt clients sender msg).1) ∧
    (∀ c, (c, false) ∈ clients → c ≠ sender →
      c ∈ (broadcastAttempt clients sender msg).2) := by
  induction clients with
  | nil => exact ⟨by simp, by simp⟩
  | cons p rest ih =>
    obtain ⟨c0, alive⟩ := p
    constructor
    · intro c hc hcs
      rcases List.mem_cons.mp hc with heq | hmem
      · have hc0 : c0 = c := by injection heq.symm
        have hal : alive = true := by injection heq.symm
        subst hc0; subst hal
        simp [broadcastAttempt, hcs]
      · have hr := ih.1 c hmem hcs
        by_cases h0 : c0 = sender
        · simpa [broadcastAttempt, h0] using hr
        · by_cases ha : alive
          · subst ha; simp [broadcastAttempt, h0]; right; exact hr
          · simp at ha; subst ha; simpa [broadcastAttempt, h0] using hr
    · intro c hc hcs
      rcases List.mem_cons.mp hc with heq | hmem
      · have hc0 : c0 = c := by injection heq.symm
        have hal : alive = false := by injection heq.symm
        subst hc0; subst hal
        simp [broadcastAttempt, hcs]
      · have hr := ih.2 c hmem hcs
        by_cases h0 : c0 = sender
        · simpa [broadcastAttempt, h0] using hr
        · by_cases ha : alive
          · subst ha; simpa [broadcastAttempt, h0] using hr
          · simp at ha; subst ha; simp [broadcastAttempt, h0]; right; exact hr

end HeartbeatServer

/-! Claim C2: broadcast exclusion -/

/-- C2 confirmed.  With N registered connections (duplicate-free socket
list) and a chat message from member x: the chat-variant
`broadcast(message, socket)` (no echo) delivers to exactly the N-1
clients other than x — its recipient list has length N-1 and contains
precisely the registered clients different from x; the heartbeat-variant
data handler (echo configuration) issues exactly N writes: the broadcast
line to every client other than x plus the distinct echo confirmation to
x itself. -/
theorem c2_broadcast_exclusion (clients : List Nat) (x : Nat)
    (msg raw : List Char) (hnd : clients.Nodup) (hx : x ∈ clients)
    (hne : ChatServer.jsTrim raw ≠ []) :
    ((ChatServer.broadcast clients msg (some x)).map Prod.fst).length =
      clients.length - 1 ∧
    (∀ c, c ∈ (ChatServer.broadcast clients msg (some x)).map Prod.fst ↔
      c ∈ clients ∧ c ≠ x) ∧
    (HeartbeatServer.hbDataHandler clients x raw).length = clients.length ∧
    (∀ c ∈ clients, c ≠ x →
      (c, HeartbeatServer.hbBroadcastText (ChatServer.jsTrim raw)) ∈
        HeartbeatServer.hbDataHandler clients x raw) ∧
    (x, HeartbeatServer.hbEchoText (ChatServer.jsTrim raw)) ∈
      HeartbeatServer.hbDataHandler clients x raw ∧
    HeartbeatServer.hbEchoText (ChatServer.jsTrim raw) ≠
      HeartbeatServer.hbBroadcastText (ChatServer.jsTrim raw) := by
  have hfsts : (ChatServer.broadcast clients msg (some x)).map Prod.fst =
      clients.filter (fun c => c ≠ x) := by
    unfold ChatServer.broadcast
    rw [List.map_map]
    have hcomp : (Prod.fst ∘ fun c : Nat => (c, msg)) = id := rfl
    rw [hcomp, List.map_id]
    apply List.filter_congr
    intro c _
    simp
  have hlen0 : 0 < clients.length :=
    List.length_pos.mpr (List.ne_nil_of_mem hx)
  have hdslen : ¬ (ChatServer.jsTrim raw).length = 0 := by
    intro h0
    exact hne (List.length_eq_zero.mp h0)
  have hunfold : HeartbeatServer.hbDataHandler clients x raw =
      ((clients.filter (fun c => c ≠ x)).map
        (fun c => (c, HeartbeatServer.hbBroadcastText (ChatServer.jsTrim raw)))) ++
      [(x, HeartbeatServer.hbEchoText (ChatServer.jsTrim raw))] := by
    simp [HeartbeatServer.hbDataHandler, hdslen]
  refine ⟨?_, ?_, ?_, ?_, ?_, ?_⟩
  · rw [hfsts]
    exact ChatServer.length_filter_ne clients x hnd hx
  · intro c
    rw [hfsts]
    simp [List.mem_filter]
  · rw [hunfold]
    simp only [List.length_append, List.length_map, List.length_cons,
      List.length_nil]
    rw [ChatServer.length_filter_ne clients x hnd hx]
    omega
  · intro c hc hcx
    rw [hunfold]
    apply List.mem_append_left
    exact List.mem_map_of_mem _ (List.mem_filter.mpr ⟨hc, by simp [hcx]⟩)
  · rw [hunfold]
    apply List.mem_append_right
    simp
  · exact HeartbeatServer.hbEchoText_ne_hbBroadcastText _

/-- C2 witness.  Three clients 0, 1, 2 and sender 1: the chat-variant
broadcast reaches two clients; the heartbeat variant echoes to 1. -/
theorem c2_broadcast_exclusion_witness :
    ((ChatServer.broadcast [0, 1, 2] ['m'] (some 1)).map Prod.fst).length = 2 ∧
    (1, HeartbeatServer.hbEchoText (ChatServer.jsTrim ['h', 'i'])) ∈
      HeartbeatServer.hbDataHandler [0, 1, 2] 1 ['h', 'i'] := by
  have h := c2_broadcast_exclusion [0, 1, 2] 1 ['m'] ['h', 'i']
    (by decide) (by decide) (by decide)
  exact ⟨h.1, h.2.2.2.2.1⟩

/-! Claim C3: first message sets the name -/

/-- C3 counterexample.  A first message that trims to the empty string
(here a single space, e.g. a bare return at the username prompt) defeats
the policy: `username` is assigned the empty string, which is still falsy,
so the *second* message is also consumed as a name-adoption (emitting a
second join broadcast) and is never forwarded as a chat message — after
the two messages no chat broadcast has occurred at all and the username is
the payload of the second message. -/
theorem c3_first_message_cex :
    (ChatServer.chatRun [] [] [[' '], ['h', 'i']]).2.filter
      ChatServer.isChatBroadcast = [] ∧
    (ChatServer.chatRun [] [] [[' '], ['h', 'i']]).1 = ['h', 'i'] := by
  constructor <;> decide

/-- C3 amended.  Provided the first received payload trims to a non-empty
string, it is adopted as the display name (the connection becomes named,
i.e. Active), the join notice is broadcast and the welcome line written,
and the payload is not broadcast as chat content; and every message
received by an already-named connection is forwarded as exactly one chat
broadcast tagged with that name, leaving the name unchanged. -/
theorem c3_first_message_policy (color raw raw2 u : List Char)
    (h1 : ChatServer.jsTrim raw ≠ []) (h2 : u ≠ []) :
    ChatServer.chatDataStep [] color raw =
      (ChatServer.jsTrim raw,
       [ChatServer.ChatEffect.registrySet (ChatServer.jsTrim raw) color,
        ChatServer.ChatEffect.broadcastAll
          (ChatServer.joinText color (ChatServer.jsTrim raw)),
        ChatServer.ChatEffect.writeSelf
          (ChatServer.welcomeText (ChatServer.jsTrim raw))]) ∧
    (ChatServer.chatDataStep [] color raw).1 ≠ [] ∧
    (∀ e ∈ (ChatServer.chatDataStep [] color raw).2,
      ChatServer.isChatBroadcast e = false) ∧
    ChatServer.chatDataStep u color raw2 =
      (u, [ChatServer.ChatEffect.broadcastExcept
            (ChatServer.chatText color u (ChatServer.jsTrim raw2))]) := by
  refine ⟨by simp [ChatServer.chatDataStep], ?_, ?_, ?_⟩
  · simpa [ChatServer.chatDataStep] using h1
  · intro e he
    simp [ChatServer.chatDataStep] at he
    rcases he with rfl | rfl | rfl <;> rfl
  · simp [ChatServer.chatDataStep, h2]

/-- C3 witness.  First message " alice \n" adopts the name "alice"; the
message "hi" from the named connection becomes one tagged chat
broadcast. -/
theorem c3_first_message_policy_witness :
    ChatServer.jsTrim (" alice \n".toList) ≠ [] ∧
    ("alice".toList : List Char) ≠ [] ∧
    ChatServer.chatDataStep [] [] (" alice \n".toList) =
      ("alice".toList,
       [ChatServer.ChatEffect.registrySet ("alice".toList) [],
        ChatServer.ChatEffect.broadcastAll
          (ChatServer.joinText [] ("alice".toList)),
        ChatServer.ChatEffect.writeSelf
          (ChatServer.welcomeText ("alice".toList))]) ∧
    ChatServer.chatDataStep ("alice".toList) [] ("hi".toList) =
      ("alice".toList,
       [ChatServer.ChatEffect.broadcastExcept
          (ChatServer.chatText [] ("alice".toList) ("hi".toList))]) := by
  have h := c3_first_message_policy [] (" alice \n".toList) ("hi".toList)
    ("alice".toList) (by decide) (by decide)
  refine ⟨by decide, by decide, ?_, ?_⟩
  · rw [h.1]; decide
  · rw [h.2.2.2]; decide

/-! Claim C5: Leave on disconnect iff Active -/

/-- C5 counterexample.  An Active connection (display name "alice")
whose socket raises an `error` is removed from the registry with *no*
leave broadcast — the error handler (lines 71-74) only deletes the map
entry — contradicting the claim that every disconnect (EOF *or* error) of
an Active connection emits a Leave. -/
theorem c5_error_no_leave_cex :
    ChatServer.chatErrorStep ("alice".toList) [] =
      [ChatServer.ChatEffect.registryDelete] ∧
    ("alice".toList : List Char) ≠ [] := by
  constructor <;> decide

/-- C5 amended.  On peer EOF (the `end` handler) a leave notice is
broadcast, and the registry entry deleted, exactly when the connection had
a display name (reached Active); a nameless (AwaitingName) connection's
EOF produces no effect at all.  On a socket `error`, however, the entry is
deleted with no leave broadcast regardless of state. -/
theorem c5_leave_policy (u color : List Char) :
    (ChatServer.chatEndStep u color =
      [ChatServer.ChatEffect.broadcastAll (ChatServer.leaveText color u),
       ChatServer.ChatEffect.registryDelete] ↔ u ≠ []) ∧
    ChatServer.chatEndStep [] color = [] ∧
    ChatServer.chatErrorStep u color =
      [ChatServer.ChatEffect.registryDelete] := by
  refine ⟨?_, by simp [ChatServer.chatEndStep], rfl⟩
  by_cases hu : u = []
  · subst hu
    simp [ChatServer.chatEndStep]
  · simp [ChatServer.chatEndStep, hu]

/-! Claim C4: heartbeat eviction -/

/-- C4 counterexample.  Evicting socket 1 from the registry [0, 1, 2] on
its inactivity timeout removes it but writes *nothing* to the remaining
peers 0 and 2: the heartbeat variant has no leave broadcast anywhere (its
`end` handler only logs, clears the interval and splices), contradicting
the claim that a Leave is broadcast to the remaining peers. -/
theorem c4_no_leave_on_eviction_cex :
    (HeartbeatServer.hbTimeoutStep [0, 1, 2] 1).2 = [] ∧
    (HeartbeatServer.hbTimeoutStep [0, 1, 2] 1).1 = [0, 2] := by
  constructor <;> decide

/-- C4 amended.  The socket inactivity limit is 60000 ms and the PING
probe period 30000 ms; when the `timeout` event fires for a registered
connection, `socket.end()` runs the `end` handler, which removes exactly
that connection from the registry (every other member survives) — but no
Leave (indeed no message at all) is broadcast to the remaining peers. -/
theorem c4_timeout_eviction (clients : List Nat) (sock : Nat)
    (hnd : clients.Nodup) (hx : sock ∈ clients) :
    HeartbeatServer.socketTimeoutMs = 60000 ∧
    HeartbeatServer.heartbeatIntervalMs = 30000 ∧
    HeartbeatServer.hbPingTick sock = (sock, HeartbeatServer.hbPingText) ∧
    (HeartbeatServer.hbTimeoutStep clients sock).1 = clients.erase sock ∧
    sock ∉ (HeartbeatServer.hbTimeoutStep clients sock).1 ∧
    (∀ c ∈ clients, c ≠ sock →
      c ∈ (HeartbeatServer.hbTimeoutStep clients sock).1) ∧
    (HeartbeatServer.hbTimeoutStep clients sock).2 = [] := by
  have hstep : (HeartbeatServer.hbTimeoutStep clients sock).1 =
      clients.erase sock := by
    simp [HeartbeatServer.hbTimeoutStep, HeartbeatServer.hbEndStep,
      HeartbeatServer.hbSpliceOut, hx]
  refine ⟨rfl, rfl, rfl, hstep, ?_, ?_, rfl⟩
  · rw [hstep]
    exact hnd.not_mem_erase
  · intro c hc hcs
    rw [hstep]
    exact (List.mem_erase_of_ne hcs).mpr hc

/-- C4 witness.  The amended statement at registry [0, 1, 2], socket 1. -/
theorem c4_timeout_eviction_witness :
    (HeartbeatServer.hbTimeoutStep [0, 1, 2] 1).1 = [0, 2] ∧
    (HeartbeatServer.hbTimeoutStep [0, 1, 2] 1).2 = [] ∧
    (0 : Nat) ∈ (HeartbeatServer.hbTimeoutStep [0, 1, 2] 1).1 := by
  have h := c4_timeout_eviction [0, 1, 2] 1 (by decide) (by decide)
  refine ⟨?_, h.2.2.2.2.2.2, h.2.2.2.2.2.1 0 (by decide) (by decide)⟩
  rw [h.2.2.2.1]
  decide

/-! Claim C8: max-connections limit -/

/-- C8 counterexample.  Take the smallest nonzero putative limit
compatible with the scenario, 2, and a registry [0, 1] that has reached
it: registering socket 7 nevertheless succeeds — the handler's
`clients.push(socket)` appends unconditionally, the registry grows to
size 3, no `RegistryFull` error exists and nothing is rejected or
released, contradicting fail-closed insertion at the limit. -/
theorem c8_no_limit_cex :
    HeartbeatServer.hbRegister [0, 1] 7 = [0, 1, 7] ∧
    (HeartbeatServer.hbRegister [0, 1] 7).length = 3 ∧
    HeartbeatServer.hbRegister [0, 1] 7 ≠ [0, 1] := by
  refine ⟨by decide, by decide, by decide⟩

/-- C8 amended.  Registration is unconditional: for every registry state
the new connection is appended, the registry size grows by exactly one and
every previous member is retained — no max-connections limit, rejection,
or `RegistryFull` error exists in the code (the listener simply keeps
accepting and registering). -/
theorem c8_register_unbounded (clients : List Nat) (sock : Nat) :
    HeartbeatServer.hbRegister clients sock = clients ++ [sock] ∧
    (HeartbeatServer.hbRegister clients sock).length = clients.length + 1 ∧
    sock ∈ HeartbeatServer.hbRegister clients sock ∧
    ∀ c ∈ clients, c ∈ HeartbeatServer.hbRegister clients sock := by
  refine ⟨rfl, by simp [HeartbeatServer.hbRegister], by
    simp [HeartbeatServer.hbRegister], ?_⟩
  intro c hc
  simp [HeartbeatServer.hbRegister, hc]

/-- C8 witness.  The amended statement at registry [0, 1], socket 2. -/
theorem c8_register_unbounded_witness :
    (2 : Nat) ∈ HeartbeatServer.hbRegister [0, 1] 2 ∧
    (0 : Nat) ∈ HeartbeatServer.hbRegister [0, 1] 2 :=
  ⟨(c8_register_unbounded [0, 1] 2).2.2.1,
   (c8_register_unbounded [0, 1] 2).2.2.2 0 (by decide)⟩

/-! Claim C9: per-recipient failure isolation -/

/-- C9 confirmed.  In the broadcast loop a failed write to one recipient
never prevents delivery to the others: every live client other than the
sender receives the message whatever the state of the other clients, every
dead client other than the sender yields exactly a per-recipient failure
record, and the loop is a total function returning both lists — no
exception aborts it or propagates to the caller. -/
theorem c9_failure_isolation (clients : List (Nat × Bool)) (sender : Nat)
    (msg : List Char) :
    (∀ c, (c, true) ∈ clients → c ≠ sender →
      (c, msg) ∈ (HeartbeatServer.broadcastAttempt clients sender msg).1) ∧
    (∀ c, (c, false) ∈ clients → c ≠ sender →
      c ∈ (HeartbeatServer.broadcastAttempt clients sender msg).2) :=
  HeartbeatServer.broadcastAttempt_mem clients sender msg

/-- C9 witness.  Clients 0 (live), 1 (dead), 2 (live), sender 0: client 2
still receives the message although client 1's write fails, and client 1
is recorded as the failure. -/
theorem c9_failure_isolation_witness :
    ((2 : Nat), ['m']) ∈
      (HeartbeatServer.broadcastAttempt
        [(0, true), (1, false), (2, true)] 0 ['m']).1 ∧
    (1 : Nat) ∈
      (HeartbeatServer.broadcastAttempt
        [(0, true), (1, false), (2, true)] 0 ['m']).2 :=
  ⟨(c9_failure_isolation [(0, true), (1, false), (2, true)] 0 ['m']).1 2
      (by decide) (by decide),
   (c9_failure_isolation [(0, true), (1, false), (2, true)] 0 ['m']).2 1
      (by decide) (by decide)⟩

/-! Claim C10: empty-message validation -/

/-- C10 confirmed.  A received payload that trims to the empty string is
not broadcast to anyone and is not forwarded as chat content: the data
handler performs exactly one write, the invalid-message reply to the
sender itself, so every write of the handler targets the sender and no
other connection's stream is touched. -/
theorem c10_empty_message (clients : List Nat) (sock : Nat)
    (raw : List Char) (h : ChatServer.jsTrim raw = []) :
    HeartbeatServer.hbDataHandler clients sock raw =
      [(sock, HeartbeatServer.invalidText)] ∧
    ∀ p ∈ HeartbeatServer.hbDataHandler clients sock raw, p.1 = sock := by
  have hlen : (ChatServer.jsTrim raw).length = 0 := by rw [h]; rfl
  have heq : HeartbeatServer.hbDataHandler clients sock raw =
      [(sock, HeartbeatServer.invalidText)] := by
    simp [HeartbeatServer.hbDataHandler, hlen]
  refine ⟨heq, ?_⟩
  intro p hp
  rw [heq] at hp
  simp at hp
  simp [hp]

/-- C10 witness.  A whitespace-only payload on registry [0, 1] from
socket 0 draws only the invalid-message reply to socket 0. -/
theorem c10_empty_message_witness :
    ChatServer.jsTrim [' '] = [] ∧
    HeartbeatServer.hbDataHandler [0, 1] 0 [' '] =
      [(0, HeartbeatServer.invalidText)] :=
  ⟨by decide, (c10_empty_message [0, 1] 0 [' '] (by decide)).1⟩

/-- C5 witness.  The amended leave policy at the name "alice": EOF of the
named connection broadcasts the leave notice and deletes the entry; an
error deletes the entry only. -/
theorem c5_leave_policy_witness :
    ChatServer.chatEndStep ("alice".toList) [] =
      [ChatServer.ChatEffect.broadcastAll
        (ChatServer.leaveText [] ("alice".toList)),
       ChatServer.ChatEffect.registryDelete] ∧
    ChatServer.chatErrorStep ("alice".toList) [] =
      [ChatServer.ChatEffect.registryDelete] := by
  have h := c5_leave_policy ("alice".toList) []
  exact ⟨h.1.mpr (by decide), h.2.2⟩
